import Mathlib

/-!
Verification development for `top_restaurants_google_places.py`.

The Python program is a linear pipeline: text-search a city for restaurants,
score each result, stable-sort descending by score, take the top 10, enrich
each survivor with a details fetch, project to an output record, and write a
JSON file named after the city.  The definitions below are shallow embeddings
of the program's functions; machine floats are idealised as real numbers, and
the two network calls are modelled by their parsed responses (`none` standing
for a transport or parse failure that `requests` raises as a
`RequestException`, which the source catches locally).
-/

namespace TopRestaurants

/-- Python truthiness coercion `x or 0.0` applied to an optional float
(line 24 of the source): `None` and the falsy float `0.0` both yield `0.0`,
any other float is returned unchanged. -/
noncomputable def pyOrZeroReal (x : Option ℝ) : ℝ :=
  match x with
  | none => 0
  | some r => if r = 0 then 0 else r

/-- Python truthiness coercion `x or 0` applied to an optional int
(line 25 of the source): `None` and `0` yield `0`, anything else is itself. -/
def pyOrZeroNat (x : Option ℕ) : ℕ :=
  match x with
  | none => 0
  | some n => if n = 0 then 0 else n

/-- Embedding of `composite_score` (source lines 23-26):
`r = rating or 0.0`, `v = float(review_count or 0)`,
`return r * (1.0 + math.log10(1.0 + v))`.
Floats are idealised as reals and `math.log10` as `Real.logb 10`. -/
noncomputable def composite_score (rating : Option ℝ) (review_count : Option ℕ) : ℝ :=
  let r : ℝ := pyOrZeroReal rating
  let v : ℝ := (pyOrZeroNat review_count : ℝ)
  r * (1.0 + Real.logb 10 (1.0 + v))

/-- Raw search result as used by the selection step (source lines 97-101):
only the fields the scoring reads, plus the display name that keeps distinct
places distinct. -/
structure Candidate where
  name : String
  rating : Option ℝ
  user_ratings_total : Option ℕ

/-- Score annotation of line 98: `p["_score"] = composite_score(p.get("rating"),
p.get("user_ratings_total"))`.  Every element of the list is annotated, so the
sort key `d.get("_score", 0.0)` of line 100 always reads this value. -/
noncomputable def scoreOf (p : Candidate) : ℝ :=
  composite_score p.rating p.user_ratings_total

/-- Comparison used by `sorted(..., key=lambda d: d.get("_score", 0.0),
reverse=True)` on line 100: `a` may stay before `b` exactly when the score of
`a` is at least the score of `b`; ties compare true both ways, and a stable
sort then keeps the original order. -/
noncomputable def scoreLe (a b : Candidate) : Bool :=
  decide (scoreOf b ≤ scoreOf a)

/-- Embedding of line 100: Python's `sorted` is a stable sort, modelled by
`List.mergeSort` with the descending-score comparison. -/
noncomputable def sorted_places (l : List Candidate) : List Candidate :=
  l.mergeSort scoreLe

/-- Embedding of line 101: `top_candidates = sorted_places[:10]`. -/
noncomputable def top_candidates (l : List Candidate) : List Candidate :=
  (sorted_places l).take 10

/-- Python dict with string keys, modelled as an association list in insertion
order; lookup returns the first (unique, for genuine Python dicts) binding. -/
abbrev PyDict (α : Type) : Type := List (String × α)

/-- Python `d.get(k)` / `d[k]` lookup: the first binding of key `k`, if any. -/
def dictGet {α : Type} (d : PyDict α) (k : String) : Option α :=
  (d.find? (fun kv => kv.1 == k)).map (fun kv => kv.2)

/-- Python `\x7b**p, **d\x7d` merge (line 107 of the source): the keys of `p`
in order, with values overridden by `d` where `d` also binds the key, followed
by the bindings of `d` whose keys are new. -/
def dictMerge {α : Type} (p d : PyDict α) : PyDict α :=
  p.map (fun kv => (kv.1, (dictGet d kv.1).getD kv.2))
    ++ d.filter (fun kv => (dictGet p kv.1).isNone)

/-- Embedding of the enrichment loop (source lines 103-108): for each selected
candidate fetch its details keyed by `p.get("place_id")`; when the details
dict is non-empty (Python truthiness of `if details:`) append the merge
`\x7b**p, **details\x7d`, otherwise skip the candidate.  The oracle `fetchD`
stands for `fetch_place_details` applied to the run's actual responses. -/
def enrich {α : Type} (fetchD : Option α → PyDict α) : List (PyDict α) → List (PyDict α)
  | [] => []
  | p :: rest =>
    let details := fetchD (dictGet p "place_id")
    if details.isEmpty then enrich fetchD rest
    else dictMerge p details :: enrich fetchD rest

/-- Parsed JSON body of a details response (source lines 49-50): the code
reads `data.get("status")` and `data.get("result", \x7b\x7d)`. -/
structure DetailsData (α : Type) where
  status : Option String
  result : Option (PyDict α)

/-- Embedding of `fetch_place_details` (source lines 40-52) as a function of
the parsed response: `none` stands for any `RequestException` (timeout,
non-2xx via `raise_for_status`, or a JSON parse failure), which the
`except` clause turns into `\x7b\x7d`; otherwise the code returns
`data.get("result", \x7b\x7d) if data.get("status") == "OK" else \x7b\x7d`. -/
def fetch_place_details {α : Type} (resp : Option (DetailsData α)) : PyDict α :=
  match resp with
  | none => []
  | some data => if data.status = some "OK" then data.result.getD [] else []

/-- Parsed JSON body of a text-search response (source line 35): the code
reads `data.get("results", [])`. -/
structure SearchData (α : Type) where
  results : Option (List (PyDict α))

/-- Embedding of `text_search_restaurants` (source lines 28-38) as a function
of the parsed response: `none` stands for any `RequestException` (timeout,
non-2xx via `raise_for_status`, or a JSON parse failure), which the `except`
clause logs and turns into `[]`; otherwise the code returns
`data.get("results", [])`. -/
def text_search_restaurants {α : Type} (resp : Option (SearchData α)) : List (PyDict α) :=
  match resp with
  | none => []
  | some data => data.results.getD []

/-- Entry of the `reviews` list of an enriched place: either a record
(Python dict, here with string values) or any non-record value, which
`isinstance(rev, dict)` on line 67 of the source filters out. -/
inductive ReviewEntry : Type where
  | dict (d : PyDict String)
  | nondict
deriving DecidableEq

/-- Test corresponding to `isinstance(rev, dict)` (source line 67). -/
def isDictEntry : ReviewEntry → Bool
  | ReviewEntry.dict _ => true
  | ReviewEntry.nondict => false

/-- Python `str.strip()` (line 65 of the source): drop leading and trailing
whitespace characters. -/
def pyStrip (s : String) : String :=
  String.mk (((s.data.dropWhile Char.isWhitespace).reverse.dropWhile
    Char.isWhitespace).reverse)

/-- Python truthiness coercion `x or ""` applied to an optional string
(line 65 of the source): `None` and the falsy empty string both yield `""`,
any other string is returned unchanged. -/
def pyOrEmptyStr (x : Option String) : String :=
  match x with
  | none => ""
  | some s => if s = "" then "" else s

/-- Embedding of the snippet comprehension of `build_output` (source lines
64-68): `[(rev.get("text") or "").strip() for rev in (p.get("reviews") or
[])[:3] if isinstance(rev, dict)]`.  The truncation `[:3]` is applied to the
raw list before the `isinstance` filter; `.strip()` is modelled by `pyStrip`. -/
def review_snippets (reviews : Option (List ReviewEntry)) : List String :=
  ((reviews.getD []).take 3).filterMap (fun rev =>
    match rev with
    | ReviewEntry.dict d => some (pyStrip (pyOrEmptyStr (dictGet d "text")))
    | ReviewEntry.nondict => none)

/-- Enriched place as read by `build_output` (source lines 54-70): the fixed
field set the projection extracts, every field optional because `p.get`
returns `None` for a missing key. -/
structure Enriched where
  name : Option String
  rating : Option ℝ
  user_ratings_total : Option ℕ
  formatted_address : Option String
  price_level : Option ℕ
  url : Option String
  website : Option String
  reviews : Option (List ReviewEntry)

/-- Value of one output entry (source lines 57-69). -/
structure OutRec where
  rating : Option ℝ
  user_ratings_total : Option ℕ
  address : Option String
  price_level : Option ℕ
  google_maps_url : Option String
  website : Option String
  review_snippets : List String

/-- Projection of one enriched place to its output record
(source lines 57-69). -/
def mkOutRec (p : Enriched) : OutRec :=
  OutRec.mk p.rating p.user_ratings_total p.formatted_address p.price_level
    p.url p.website (review_snippets p.reviews)

/-- Python dict assignment `out[k] = v` (source line 57): overwrite in place
when the key exists, append otherwise. -/
def dictAssign (out : List (String × OutRec)) (k : String) (v : OutRec) :
    List (String × OutRec) :=
  if out.any (fun kv => kv.1 == k) then
    out.map (fun kv => if kv.1 == k then (k, v) else kv)
  else out ++ [(k, v)]

/-- Embedding of `build_output` (source lines 54-70): fold the enriched list
into a mapping keyed by `p.get("name", "Unknown")`. -/
def build_output (top_places : List Enriched) : List (String × OutRec) :=
  top_places.foldl
    (fun out p => dictAssign out (p.name.getD "Unknown") (mkOutRec p)) []

/-- Python `city.replace(' ', '_')` (source line 115): the pattern is a single
character, so the replacement is character-wise. -/
def replaceSpace (s : String) : String :=
  String.mk (s.data.map (fun c => if c = ' ' then '_' else c))

/-- Python `str.lower()` (source line 115), character-wise. -/
def pyLower (s : String) : String :=
  String.mk (s.data.map Char.toLower)

/-- Filename computed on source line 115:
`f"top-10-restaurants-\x7bcity.replace(' ', '_').lower()\x7d.json"`. -/
def output_filename (city : String) : String :=
  "top-10-restaurants-" ++ pyLower (replaceSpace city) ++ ".json"

/-- Embedding of the tail of `main` (source lines 110-117): when the enriched
list is empty the program prints a message and writes nothing (`none`);
otherwise it writes `build_output enriched` to the file named by
`output_filename` (`some` of filename and content). -/
def write_output (city : String) (enriched : List Enriched) :
    Option (String × List (String × OutRec)) :=
  if enriched.isEmpty = true then none
  else some (output_filename city, build_output enriched)

theorem pyOrZeroReal_some (r : ℝ) : pyOrZeroReal (some r) = r := by
  unfold pyOrZeroReal
  split <;> simp_all

theorem pyOrZeroReal_none : pyOrZeroReal none = 0 := rfl

theorem pyOrZeroNat_some (n : ℕ) : pyOrZeroNat (some n) = n := by
  unfold pyOrZeroNat
  split <;> simp_all

theorem pyOrZeroNat_none : pyOrZeroNat none = 0 := rfl

theorem pyOrZeroReal_getD (x : Option ℝ) : pyOrZeroReal x = x.getD 0 := by
  cases x with
  | none => rfl
  | some r => rw [pyOrZeroReal_some]; rfl

theorem pyOrZeroNat_getD (x : Option ℕ) : pyOrZeroNat x = x.getD 0 := by
  cases x with
  | none => rfl
  | some n => rw [pyOrZeroNat_some]; rfl

theorem composite_score_eq (rating : Option ℝ) (review_count : Option ℕ) :
    composite_score rating review_count
      = rating.getD 0 * (1 + Real.logb 10 (1 + (review_count.getD 0 : ℝ))) := by
  unfold composite_score
  rw [pyOrZeroReal_getD, pyOrZeroNat_getD]
  norm_num

/-- C1: for every optional rating `r` and optional review count `v`,
`composite_score` returns `(r treated as 0.0 if absent) * (1 + log10(1 + (v
treated as 0 if absent)))`, and the argument passed to `log10` is strictly
positive (in particular `1 + 0 = 1` for absent or zero inputs), so the real
logarithm is honestly defined there and no error is raised. -/
theorem composite_score_formula (rating : Option ℝ) (review_count : Option ℕ) :
    composite_score rating review_count
      = rating.getD 0 * (1 + Real.logb 10 (1 + (review_count.getD 0 : ℝ)))
    ∧ (0 : ℝ) < 1 + (pyOrZeroNat review_count : ℝ)
    ∧ composite_score none none = 0 := by
  refine ⟨composite_score_eq rating review_count, ?_, ?_⟩
  · positivity
  · rw [composite_score_eq]
    simp [Real.logb_one]

/-- C2 counterexample: the claim `composite_score(r, 0) = 0` for every rating
fails at rating 5 with review count 0: the code returns `5 * (1 + log10 1) = 5`,
which is not `0`. -/
theorem composite_score_zero_reviews_counterexample :
    composite_score (some 5) (some 0) = 5
    ∧ composite_score (some 5) (some 0) ≠ 0 := by
  have h : composite_score (some 5) (some 0) = 5 := by
    rw [composite_score_eq]
    simp [Real.logb_one]
  exact ⟨h, by rw [h]; norm_num⟩

/-- C2 amended: a place with zero reviews scores its bare rating, not zero:
`composite_score(r, 0) = r` for every rating `r`, since `log10(1 + 0) = 0`
makes the multiplier `1`. -/
theorem composite_score_at_zero_reviews (r : ℝ) :
    composite_score (some r) (some 0) = r := by
  rw [composite_score_eq]
  simp [Real.logb_one]

/-- C3: for ratings in `[0, 5]` and review counts (naturals, hence `≥ 0`),
`composite_score` is monotonically non-decreasing in the rating and in the
review count, and `composite_score(0, v) = 0` for every review count `v`. -/
theorem composite_score_monotone (r r' : ℝ) (v v' : ℕ)
    (hr0 : 0 ≤ r) (hrr : r ≤ r') (hr5 : r' ≤ 5) (hvv : v ≤ v') :
    composite_score (some r) (some v) ≤ composite_score (some r') (some v)
    ∧ composite_score (some r) (some v) ≤ composite_score (some r) (some v')
    ∧ composite_score (some 0) (some v) = 0 := by
  have hb : (1 : ℝ) < 10 := by norm_num
  refine ⟨?_, ?_, ?_⟩
  · rw [composite_score_eq, composite_score_eq]
    have hlog : (0 : ℝ) ≤ Real.logb 10 (1 + (v : ℝ)) := by
      apply Real.logb_nonneg hb
      have : (0 : ℝ) ≤ (v : ℝ) := by positivity
      linarith
    have hfac : (0 : ℝ) ≤ 1 + Real.logb 10 (1 + (v : ℝ)) := by linarith
    simpa using mul_le_mul_of_nonneg_right hrr hfac
  · rw [composite_score_eq, composite_score_eq]
    have hlog : Real.logb 10 (1 + (v : ℝ)) ≤ Real.logb 10 (1 + (v' : ℝ)) := by
      apply Real.logb_le_logb_of_le hb
      · have : (0 : ℝ) ≤ (v : ℝ) := by positivity
        linarith
      · have : (v : ℝ) ≤ (v' : ℝ) := by exact_mod_cast hvv
        linarith
    have : (1 : ℝ) + Real.logb 10 (1 + (v : ℝ)) ≤ 1 + Real.logb 10 (1 + (v' : ℝ)) := by
      linarith
    simpa using mul_le_mul_of_nonneg_left this hr0
  · rw [composite_score_eq]
    simp

/-- C3 witness: the monotonicity theorem applied at rating bounds `1 ≤ 2 ≤ 5`
and review counts `3 ≤ 8`. -/
theorem composite_score_monotone_witness :
    ((0 : ℝ) ≤ 1 ∧ (1 : ℝ) ≤ 2 ∧ (2 : ℝ) ≤ 5 ∧ 3 ≤ 8)
    ∧ (composite_score (some 1) (some 3) ≤ composite_score (some 2) (some 3)
       ∧ composite_score (some 1) (some 3) ≤ composite_score (some 1) (some 8)
       ∧ composite_score (some 0) (some 3) = 0) :=
  ⟨by norm_num,
   composite_score_monotone 1 2 3 8 (by norm_num) (by norm_num) (by norm_num) (by norm_num)⟩

theorem scoreLe_trans (a b c : Candidate) :
    scoreLe a b → scoreLe b c → scoreLe a c := by
  simp only [scoreLe, decide_eq_true_eq]
  intro h1 h2
  exact le_trans h2 h1

theorem scoreLe_total (a b : Candidate) : scoreLe a b || scoreLe b a := by
  simp only [scoreLe, Bool.or_eq_true, decide_eq_true_eq]
  exact le_total (scoreOf b) (scoreOf a)

/-- C4: selection stable-sorts the scored results descending by composite
score and truncates to the first 10: the selected list has exactly
`min 10 (number of results)` entries and never more than 10, it is
pairwise non-increasing in score, the sort permutes the input, and two
candidates of equal score keep their original relative order. -/
theorem selection_spec (l : List Candidate) :
    (top_candidates l).length = min 10 l.length
    ∧ (top_candidates l).length ≤ 10
    ∧ (top_candidates l).Pairwise (fun a b => scoreOf b ≤ scoreOf a)
    ∧ (sorted_places l).Perm l
    ∧ (∀ a b : Candidate, List.Sublist [a, b] l → scoreOf a = scoreOf b →
        List.Sublist [a, b] (sorted_places l)) := by
  refine ⟨?_, ?_, ?_, ?_, ?_⟩
  · simp [top_candidates, sorted_places]
  · simp [top_candidates, sorted_places]
  · have hs : (sorted_places l).Pairwise (fun a b => scoreLe a b = true) :=
      List.sorted_mergeSort scoreLe_trans scoreLe_total l
    have hs' : (sorted_places l).Pairwise (fun a b => scoreOf b ≤ scoreOf a) := by
      refine hs.imp ?_
      intro a b h
      simpa [scoreLe, decide_eq_true_eq] using h
    exact hs'.sublist (List.take_sublist 10 (sorted_places l))
  · exact List.mergeSort_perm l scoreLe
  · intro a b hsub heq
    apply List.pair_sublist_mergeSort scoreLe_trans scoreLe_total
    · simp only [scoreLe, decide_eq_true_eq]
      exact le_of_eq heq.symm
    · exact hsub

/-- C4 witness: two distinct candidates with no rating score equally (both
zero), and the stability clause applied to the concrete list keeps their
original order; the selected list has `min 10 2` entries. -/
theorem selection_spec_witness :
    scoreOf (Candidate.mk "A" none none) = scoreOf (Candidate.mk "B" none none)
    ∧ List.Sublist [Candidate.mk "A" none none, Candidate.mk "B" none none]
        (sorted_places [Candidate.mk "A" none none, Candidate.mk "B" none none])
    ∧ (top_candidates [Candidate.mk "A" none none, Candidate.mk "B" none none]).length
        = min 10 [Candidate.mk "A" none none, Candidate.mk "B" none none].length := by
  have heq : scoreOf (Candidate.mk "A" none none)
      = scoreOf (Candidate.mk "B" none none) := by
    simp [scoreOf, composite_score_eq]
  refine ⟨heq, ?_, ?_⟩
  · exact (selection_spec [Candidate.mk "A" none none, Candidate.mk "B" none none]).2.2.2.2
      (Candidate.mk "A" none none) (Candidate.mk "B" none none)
      (List.Sublist.refl _) heq
  · exact (selection_spec [Candidate.mk "A" none none, Candidate.mk "B" none none]).1

theorem dictGet_nil {α : Type} (k : String) : dictGet ([] : PyDict α) k = none := rfl

theorem dictGet_cons {α : Type} (kv : String × α) (tl : PyDict α) (k : String) :
    dictGet (kv :: tl) k = if kv.1 = k then some kv.2 else dictGet tl k := by
  by_cases h : kv.1 = k
  · have hb : (kv.1 == k) = true := beq_iff_eq.mpr h
    simp [dictGet, List.find?_cons, hb, h]
  · have hb : (kv.1 == k) = false := beq_eq_false_iff_ne.mpr h
    simp [dictGet, List.find?_cons, hb, h]

theorem dictGet_append {α : Type} (l₁ l₂ : PyDict α) (k : String) :
    dictGet (l₁ ++ l₂) k = (dictGet l₁ k).or (dictGet l₂ k) := by
  induction l₁ with
  | nil => rw [List.nil_append, dictGet_nil, Option.none_or]
  | cons kv tl ih =>
    rw [List.cons_append, dictGet_cons, dictGet_cons]
    by_cases h : kv.1 = k
    · rw [if_pos h, if_pos h]
      rfl
    · rw [if_neg h, if_neg h, ih]

theorem dictGet_overrideMap {α : Type} (p d : PyDict α) (k : String) :
    dictGet (p.map (fun kv => (kv.1, (dictGet d kv.1).getD kv.2))) k
      = (dictGet p k).map (fun v => (dictGet d k).getD v) := by
  induction p with
  | nil => rfl
  | cons kv tl ih =>
    by_cases h : kv.1 = k
    · simp [dictGet_cons, h]
    · simp [dictGet_cons, h, ih]

theorem dictGet_filterNew {α : Type} (p d : PyDict α) (k : String)
    (hp : dictGet p k = none) :
    dictGet (d.filter (fun kv => (dictGet p kv.1).isNone)) k = dictGet d k := by
  induction d with
  | nil => rfl
  | cons kv tl ih =>
    by_cases h : kv.1 = k
    · simp [List.filter_cons, hp, dictGet_cons, h]
    · by_cases hq : (dictGet p kv.1).isNone = true
      · simp [List.filter_cons, hq, dictGet_cons, h, ih]
      · simp [List.filter_cons, hq, dictGet_cons, h, ih]

theorem dictGet_dictMerge {α : Type} (p d : PyDict α) (k : String) :
    dictGet (dictMerge p d) k
      = match dictGet d k with
        | some v => some v
        | none => dictGet p k := by
  unfold dictMerge
  rw [dictGet_append, dictGet_overrideMap]
  cases hp : dictGet p k with
  | some v =>
    cases hd : dictGet d k with
    | some w => simp
    | none => simp
  | none =>
    cases hd : dictGet d k <;> simp [dictGet_filterNew p d k hp, hd]

theorem enrich_eq_filter_map {α : Type} (fetchD : Option α → PyDict α)
    (tops : List (PyDict α)) :
    enrich fetchD tops
      = (tops.filter (fun p => !(fetchD (dictGet p "place_id")).isEmpty)).map
          (fun p => dictMerge p (fetchD (dictGet p "place_id"))) := by
  induction tops with
  | nil => rfl
  | cons p rest ih =>
    show (if (fetchD (dictGet p "place_id")).isEmpty then enrich fetchD rest
      else dictMerge p (fetchD (dictGet p "place_id")) :: enrich fetchD rest) = _
    cases h : (fetchD (dictGet p "place_id")).isEmpty with
    | true => simp [h, ih, List.filter_cons]
    | false => simp [h, ih, List.filter_cons]

/-- C5: enrichment keeps exactly the candidates whose detail fetch returned a
non-empty record — in their original (score-sorted) relative order, merged as
candidate overlaid by details — drops candidates with an empty detail record,
and adds no candidate from outside the selection; on the merged record a
lookup returns the detail value whenever the details bind the key, and the
candidate's value otherwise. -/
theorem enrichment_spec {α : Type} (fetchD : Option α → PyDict α)
    (tops : List (PyDict α)) :
    (enrich fetchD tops
      = (tops.filter (fun p => !(fetchD (dictGet p "place_id")).isEmpty)).map
          (fun p => dictMerge p (fetchD (dictGet p "place_id"))))
    ∧ (∀ q, q ∈ enrich fetchD tops →
        ∃ p, p ∈ tops ∧ fetchD (dictGet p "place_id") ≠ []
          ∧ q = dictMerge p (fetchD (dictGet p "place_id")))
    ∧ (∀ (c d : PyDict α) (k : String),
        dictGet (dictMerge c d) k
          = match dictGet d k with
            | some v => some v
            | none => dictGet c k) := by
  refine ⟨enrich_eq_filter_map fetchD tops, ?_, fun c d k => dictGet_dictMerge c d k⟩
  intro q hq
  rw [enrich_eq_filter_map] at hq
  obtain ⟨p, hp, hpq⟩ := List.mem_map.mp hq
  obtain ⟨hmem, hne⟩ := List.mem_filter.mp hp
  refine ⟨p, hmem, ?_, hpq.symm⟩
  simpa [List.isEmpty_iff] using hne

/-- C5 witness: with two selected candidates of which only the first has a
non-empty detail record, every member of the enriched list comes from the
selection, fetched non-empty and merged. -/
theorem enrichment_spec_witness :
    ∃ p, p ∈ [[("place_id", "id1")], [("place_id", "id2")]]
      ∧ (fun pid => if pid = some "id1" then [("rating", "5")] else
          ([] : PyDict String)) (dictGet p "place_id") ≠ []
      ∧ dictMerge [("place_id", "id1")] [("rating", "5")]
          = dictMerge p ((fun pid => if pid = some "id1" then [("rating", "5")] else
              ([] : PyDict String)) (dictGet p "place_id")) :=
  (enrichment_spec
      (fun pid => if pid = some "id1" then [("rating", "5")] else ([] : PyDict String))
      [[("place_id", "id1")], [("place_id", "id2")]]).2.1
    (dictMerge [("place_id", "id1")] [("rating", "5")])
    (by decide)

/-- C6: `fetch_place_details` returns the response's detail record only when
the response status is "OK"; on any other status, or on any transport or
parse failure, it returns an empty record (and, being a total function of the
response, raises nothing outward). -/
theorem fetch_place_details_spec {α : Type} (resp : Option (DetailsData α)) :
    fetch_place_details (none : Option (DetailsData α)) = []
    ∧ (∀ data, resp = some data → data.status = some "OK" →
        fetch_place_details resp = data.result.getD [])
    ∧ (∀ data, resp = some data → data.status ≠ some "OK" →
        fetch_place_details resp = []) := by
  refine ⟨rfl, ?_, ?_⟩
  · intro data h hok
    subst h
    simp [fetch_place_details, hok]
  · intro data h hok
    subst h
    simp [fetch_place_details, hok]

/-- C6 witness: a response with status "OK" and a one-field record yields that
record, by the theorem applied at the concrete response. -/
theorem fetch_place_details_spec_witness :
    fetch_place_details (some (DetailsData.mk (some "OK") (some [("name", "X")])))
      = [("name", "X")] :=
  (fetch_place_details_spec
      (some (DetailsData.mk (some "OK") (some [("name", "X")])))).2.1
    (DetailsData.mk (some "OK") (some [("name", "X")])) rfl rfl

/-- C7: `text_search_restaurants` returns the provider's results list on
success and an empty list on any transport-level failure instead of raising,
so a failed request is indistinguishable from a successful response with an
empty results list. -/
theorem text_search_restaurants_spec {α : Type} (resp : Option (SearchData α)) :
    text_search_restaurants (none : Option (SearchData α)) = []
    ∧ (∀ data results, resp = some data → data.results = some results →
        text_search_restaurants resp = results)
    ∧ text_search_restaurants (none : Option (SearchData α))
        = text_search_restaurants (some (SearchData.mk (some []))) := by
  refine ⟨rfl, ?_, rfl⟩
  intro data results h hres
  subst h
  simp [text_search_restaurants, hres]

/-- C7 witness: a successful response carrying one result record is returned
as-is, by the theorem applied at the concrete response. -/
theorem text_search_restaurants_spec_witness :
    text_search_restaurants (some (SearchData.mk (some [[("name", "A")]])))
      = [[("name", "A")]] :=
  (text_search_restaurants_spec
      (some (SearchData.mk (some [[("name", "A")]])))).2.1
    (SearchData.mk (some [[("name", "A")]])) [[("name", "A")]] rfl rfl

theorem review_snippets_eq (reviews : Option (List ReviewEntry)) :
    review_snippets reviews
      = (((reviews.getD []).take 3).filter isDictEntry).map
          (fun rev => match rev with
            | ReviewEntry.dict d => pyStrip (pyOrEmptyStr (dictGet d "text"))
            | ReviewEntry.nondict => "") := by
  unfold review_snippets
  generalize (reviews.getD []).take 3 = l
  induction l with
  | nil => rfl
  | cons rev tl ih =>
    cases rev with
    | dict d => simp [List.filterMap_cons, List.filter_cons, isDictEntry, ih]
    | nondict => simp [List.filterMap_cons, List.filter_cons, isDictEntry, ih]

theorem review_snippets_length_le (reviews : Option (List ReviewEntry)) :
    (review_snippets reviews).length ≤ 3 := by
  unfold review_snippets
  exact le_trans (List.length_filterMap_le _ _) (List.length_take_le 3 _)

/-- C8: the projected `review_snippets` list has at most 3 entries; each entry
is the review's `text` field stripped of leading and trailing whitespace
(coerced to `""` first when the record lacks a `text` field, so no error is
raised); and review entries that are not records are silently skipped, the
snippets being exactly the stripped texts of the records among the first three
entries, in order. -/
theorem review_snippets_spec (reviews : Option (List ReviewEntry)) :
    (review_snippets reviews).length ≤ 3
    ∧ (∀ s, s ∈ review_snippets reviews →
        ∃ d, ReviewEntry.dict d ∈ (reviews.getD []).take 3
          ∧ s = pyStrip (pyOrEmptyStr (dictGet d "text"))
          ∧ (dictGet d "text" = none → s = ""))
    ∧ review_snippets reviews
        = (((reviews.getD []).take 3).filter isDictEntry).map
            (fun rev => match rev with
              | ReviewEntry.dict d => pyStrip (pyOrEmptyStr (dictGet d "text"))
              | ReviewEntry.nondict => "") := by
  refine ⟨review_snippets_length_le reviews, ?_, review_snippets_eq reviews⟩
  intro s hs
  unfold review_snippets at hs
  obtain ⟨rev, hrev, hf⟩ := List.mem_filterMap.mp hs
  cases rev with
  | dict d =>
    refine ⟨d, hrev, ?_, ?_⟩
    · exact (Option.some_inj.mp hf).symm
    · intro hnone
      rw [← Option.some_inj.mp hf, hnone]
      decide
  | nondict => cases hf

/-- C8 witness: the membership clause of the theorem applied to the snippet
"hi", extracted from a reviews list holding a padded text, a non-record entry
and a record lacking a text field. -/
theorem review_snippets_spec_witness :
    ∃ d, ReviewEntry.dict d
        ∈ ((some [ReviewEntry.dict [("text", "  hi ")], ReviewEntry.nondict,
            ReviewEntry.dict []] : Option (List ReviewEntry)).getD []).take 3
      ∧ "hi" = pyStrip (pyOrEmptyStr (dictGet d "text"))
      ∧ (dictGet d "text" = none → "hi" = "") :=
  (review_snippets_spec
      (some [ReviewEntry.dict [("text", "  hi ")], ReviewEntry.nondict,
        ReviewEntry.dict []])).2.1 "hi" (by decide)

/-- C10: the snippet comprehension truncates to the first three review
entries before discarding non-records, so any non-record among the first
three forces fewer than three snippets, no matter how many well-formed
review records follow. -/
theorem review_snippets_take_before_filter (l : List ReviewEntry)
    (h : ∃ r, r ∈ l.take 3 ∧ isDictEntry r = false) :
    (review_snippets (some l)).length < 3 := by
  rw [review_snippets_eq]
  have hle : ((l.take 3).filter isDictEntry).length ≤ (l.take 3).length :=
    List.length_filter_le _ _
  have hne : ((l.take 3).filter isDictEntry).length ≠ (l.take 3).length := by
    intro heq
    obtain ⟨r, hr, hrf⟩ := h
    have := (List.filter_length_eq_length.mp heq) r hr
    rw [hrf] at this
    cases this
  have hlt : ((l.take 3).filter isDictEntry).length < (l.take 3).length :=
    lt_of_le_of_ne hle hne
  have h3 : (l.take 3).length ≤ 3 := List.length_take_le 3 l
  rw [List.length_map]
  exact lt_of_lt_of_le hlt h3

/-- C10 witness: a reviews list whose first entry is a non-record yields only
two snippets although four well-formed review records follow it. -/
theorem review_snippets_take_before_filter_witness :
    (review_snippets (some [ReviewEntry.nondict,
        ReviewEntry.dict [("text", "a")], ReviewEntry.dict [("text", "b")],
        ReviewEntry.dict [("text", "c")], ReviewEntry.dict [("text", "d")]])).length < 3
    ∧ 3 ≤ ([ReviewEntry.nondict,
        ReviewEntry.dict [("text", "a")], ReviewEntry.dict [("text", "b")],
        ReviewEntry.dict [("text", "c")],
        ReviewEntry.dict [("text", "d")]].filter isDictEntry).length :=
  ⟨review_snippets_take_before_filter
      [ReviewEntry.nondict,
        ReviewEntry.dict [("text", "a")], ReviewEntry.dict [("text", "b")],
        ReviewEntry.dict [("text", "c")], ReviewEntry.dict [("text", "d")]]
      ⟨ReviewEntry.nondict, by decide, rfl⟩,
    by decide⟩

/-- C9: the output file is written if and only if at least one candidate was
successfully enriched, its name is "top-10-restaurants-" followed by the city
with spaces replaced by underscores and lowercased followed by ".json", and
for the city "New York" that name is "top-10-restaurants-new_york.json". -/
theorem write_output_spec (city : String) (enriched : List Enriched) :
    (write_output city enriched = none ↔ enriched = [])
    ∧ (∀ fn content, write_output city enriched = some (fn, content) →
        fn = "top-10-restaurants-" ++ pyLower (replaceSpace city) ++ ".json"
          ∧ content = build_output enriched)
    ∧ output_filename "New York" = "top-10-restaurants-new_york.json" := by
  refine ⟨?_, ?_, by decide⟩
  · cases h : enriched.isEmpty with
    | true => simp [write_output, h, List.isEmpty_iff.mp h]
    | false =>
      have hne : enriched ≠ [] := List.isEmpty_eq_false.mp h
      simp [write_output, h, hne]
  · intro fn content hw
    unfold write_output at hw
    by_cases he : enriched.isEmpty = true
    · rw [if_pos he] at hw
      cases hw
    · rw [if_neg he] at hw
      have hp := Option.some_inj.mp hw
      rw [Prod.mk.injEq] at hp
      exact ⟨hp.1.symm, hp.2.symm⟩

/-- C9 witness: the filename clause of the theorem applied at city "New York"
and a single-place enriched list, the write hypothesis discharged by
computation. -/
theorem write_output_spec_witness :
    output_filename "New York"
        = "top-10-restaurants-" ++ pyLower (replaceSpace "New York") ++ ".json"
    ∧ build_output [Enriched.mk none none none none none none none none]
        = build_output [Enriched.mk none none none none none none none none] :=
  (write_output_spec "New York"
      [Enriched.mk none none none none none none none none]).2.1
    (output_filename "New York")
    (build_output [Enriched.mk none none none none none none none none])
    rfl

end TopRestaurants
